import Mathlib

/-!
Formal model of the spreadsheet-to-tidy-table core of the shopify_sync_app
repository: the block parser of `src/parser.py` and the melter, price-lookup,
variant-key and product-reading helpers of `src/streamlit_app.py`.

Modelling conventions.
Spreadsheet cells are `CellVal`: absent (pandas `NaN`), a number, or a text.
Numbers are exact rationals: Python's binary floating point is abstracted to
`ℚ` (every numeric value exercised by the verified claims is exactly
representable).  A text cell carries `asNum`, the value that Python's
`float(...)` / `pandas.to_numeric` would produce for it (`none` when the text
does not parse as a number); the numeric parse of a text is thus an oracle
attached to the cell.  String operations of the source are modelled on the
character list of the string, since only the single-character patterns used
by the source occur.  All rational literals are written with `mkRat`.
-/

inductive CellVal : Type
  | absent : CellVal
  | num : ℚ → CellVal
  | text : String → Option ℚ → CellVal
deriving DecidableEq, Repr

/-- Model of `pandas.notna` on one cell. -/
def CellVal.notna : CellVal → Bool
  | .absent => false
  | _ => true

/-- Combined model of a `pd.notna(v)` guard followed by `float(v)` (or of
`pd.to_numeric(v, errors="coerce")`): `none` means absent or non-numeric. -/
def CellVal.tryFloat : CellVal → Option ℚ
  | .absent => none
  | .num q => some q
  | .text _ nv => nv

/-- Model of Python `str(...)` on a cell value.  A text renders as itself;
the rendering of a numeric cell is abstracted to the canonical rational
representation (no verified claim exercises it); an absent cell renders as
`"nan"`, as `str(float("nan"))` does. -/
def CellVal.pyStr : CellVal → String
  | .absent => "nan"
  | .num q => toString q
  | .text s _ => s

/-- Whitespace recognized by Python `str.strip()`. -/
def isPySpace (c : Char) : Bool :=
  c = ' ' || c = '\t' || c = '\n' || c = '\r' || c = '\x0b' || c = '\x0c'

/-- Model of Python `str.strip()` (also used for `Series.str.strip()`). -/
def pyStrip (s : String) : String :=
  String.mk (((s.data.dropWhile isPySpace).reverse.dropWhile isPySpace).reverse)

/-- Python `str.lower()` on one character, on the alphabet the application
handles: ASCII letters plus the uppercase forms of the accented vowels that
`make_variant_sku` transliterates. -/
def pyLowerChar (c : Char) : Char :=
  if 'A' ≤ c && c ≤ 'Z' then Char.ofNat (c.toNat + 32)
  else if c = 'À' then 'à'
  else if c = 'È' then 'è'
  else if c = 'É' then 'é'
  else if c = 'Ì' then 'ì'
  else if c = 'Ò' then 'ò'
  else if c = 'Ù' then 'ù'
  else c

/-- Model of Python `str.lower()`. -/
def pyLower (s : String) : String := String.mk (s.data.map pyLowerChar)

/-- Model of Python `str.replace(old, new)` for the single-character
patterns that the source uses. -/
def pyReplaceChar (old : Char) (new : String) (s : String) : String :=
  String.mk (s.data.flatMap (fun c => if c = old then new.data else [c]))

/-- Model of the Python slice `s[:n]`: at most the first `n` characters. -/
def pyTake (n : ℕ) (s : String) : String := String.mk (s.data.take n)

/-- Model of Python `int(...)` on an exact rational: truncation toward 0. -/
def pyTrunc (q : ℚ) : ℤ := Int.tdiv q.num (q.den : ℤ)

/-- Round `100 · q` to the nearest integer, ties to even, computed with
integer arithmetic on numerator and denominator. -/
def roundCentsHalfEven (q : ℚ) : ℤ :=
  let n : ℤ := q.num * 100
  let d : ℤ := (q.den : ℤ)
  let f : ℤ := Int.fdiv n d
  let r2 : ℤ := 2 * (n - f * d)
  if r2 < d then f
  else if d < r2 then f + 1
  else if f % 2 = 0 then f else f + 1

/-- Model of Python `round(x, 2)` on exact rationals (round half to even;
the representation error of binary doubles is out of the model's scope). -/
def pyRound2 (q : ℚ) : ℚ := mkRat (roundCentsHalfEven q) 100

/-- Model of the Python format `f"{x:.2f}"`. -/
def pyFormat2 (q : ℚ) : String :=
  let c : ℤ := roundCentsHalfEven q
  let a : ℕ := c.natAbs
  let frac : ℕ := a % 100
  (if c < 0 then "-" else "") ++ toString (a / 100) ++ "." ++
    (if frac < 10 then "0" else "") ++ toString frac

/-- A spreadsheet row: an association of column labels to cell values; a
label that is not listed holds an absent cell (pandas `NaN`). -/
abbrev Row : Type := List (String × CellVal)

/-- Cell of a row at a column label. -/
def Row.cell (r : Row) (c : String) : CellVal :=
  match r.find? (fun p => p.1 == c) with
  | some p => p.2
  | none => .absent

/-- A sheet (a `pandas.DataFrame`): ordered column labels plus rows. -/
structure Sheet where
  cols : List String
  rows : List Row
deriving DecidableEq, Repr

/-- Columns kept by the empty-column removal of `parse_pricing_matrix`
(`[c for c in df.columns if not df[c].isna().all()]`). -/
def keptCols (s : Sheet) : List String :=
  s.cols.filter (fun c => s.rows.any (fun r => (Row.cell r c).notna))

/-- Cell access on the column-filtered frame: `row.get(c)` yields `None`
for a dropped or unknown label. -/
def cellK (kept : List String) (r : Row) (c : String) : CellVal :=
  if decide (c ∈ kept) = true then Row.cell r c else .absent

/-- The canonical output row of the block parser (columns
`Titolo Prodotto, SKU, Posizione Stampa, Quantità, Prezzo`); `titolo` and
`sku` keep the raw cell values, which the source propagates unchanged. -/
structure TidyRow where
  titolo : CellVal
  sku : CellVal
  pos : String
  qty : ℤ
  prezzo : ℚ
deriving DecidableEq, Repr

/-- Code-point key of a string, for the lexicographic sort order (pandas
compares Python strings, i.e. code-point sequences). -/
def strKey (s : String) : List ℕ := s.data.map Char.toNat

/-- Sort key of a cell value: cells of the same kind compare by value
(numbers numerically, texts by code points); the kind rank separates unlike
kinds, abstracting the `TypeError` pandas raises on mixed-type columns. -/
def cellKey : CellVal → Lex (ℕ × Lex (ℚ × List ℕ))
  | .absent => toLex (0, toLex (mkRat 0 1, []))
  | .num q => toLex (1, toLex (q, []))
  | .text s _ => toLex (2, toLex (mkRat 0 1, strKey s))

/-- The full `(Titolo Prodotto, SKU, Posizione Stampa, Quantità)` sort key
of `result.sort_values([...])`. -/
def tidyKey (t : TidyRow) : Lex ((Lex (ℕ × Lex (ℚ × List ℕ))) ×
    Lex ((Lex (ℕ × Lex (ℚ × List ℕ))) × Lex (List ℕ × ℤ))) :=
  toLex (cellKey t.titolo, toLex (cellKey t.sku, toLex (strKey t.pos, t.qty)))

/-- Boolean comparison "sorts not after" for the final sort. -/
def tidyLE (a b : TidyRow) : Bool := decide (tidyKey a ≤ tidyKey b)

/-- Stable insertion into a sorted list, the building block of the model of
`sort_values`. -/
def insertTidy (a : TidyRow) : List TidyRow → List TidyRow
  | [] => [a]
  | b :: l => if tidyLE a b then a :: b :: l else b :: insertTidy a l

/-- Model of `result.sort_values(["Titolo Prodotto","SKU","Posizione
Stampa","Quantità"])`: a stable sort by the four-part key (pandas multi-key
sorts are stable lexicographic sorts). -/
def sortTidy (l : List TidyRow) : List TidyRow := l.foldr insertTidy []

/-- Error raised by `parse_pricing_matrix`
(`ValueError("Colonna 'Quantità' non trovata nel file.")`). -/
inductive ParseErr : Type
  | missingQuantityColumn
deriving DecidableEq, Repr

/-- Start-of-next-block test of the inner scan:
`pd.notna(r2.get("Titolo Prodotto")) and pd.notna(r2.get("SKU"))`. -/
def isNewBlock (cell : String → CellVal) : Bool :=
  (cell "Titolo Prodotto").notna && (cell "SKU").notna

/-- Product-header test of the outer scan: title and SKU present and
`Posizione Stampa` absent. -/
def isHeaderB (cell : String → CellVal) : Bool :=
  isNewBlock cell && !(cell "Posizione Stampa").notna

/-- Candidate quantity columns: the labels from `"Quantità"` (inclusive) to
the end of the kept column list. -/
def qtyColsOf (kept : List String) : List String :=
  kept.dropWhile (fun c => c != "Quantità")

/-- Breakpoints captured from a header row: for each candidate column whose
cell is numeric, the pair `(column, int(float(value)))`. -/
def headerQuantities (cell : String → CellVal) (kept : List String) :
    List (String × ℤ) :=
  (qtyColsOf kept).filterMap (fun c => ((cell c).tryFloat).map (fun f => (c, pyTrunc f)))

/-- Rows emitted from one row inside a block: nothing when its
`Posizione Stampa` is absent, otherwise one `TidyRow` per captured
breakpoint whose price cell in this row is present and numeric. -/
def emitPositionRow (titolo sku : CellVal) (cell : String → CellVal)
    (qs : List (String × ℤ)) : List TidyRow :=
  if (cell "Posizione Stampa").notna then
    qs.filterMap (fun cq => ((cell cq.1).tryFloat).map (fun p =>
      ⟨titolo, sku, pyStrip (cell "Posizione Stampa").pyStr, cq.2, pyRound2 p⟩))
  else []

/-- The block scan of `parse_pricing_matrix` (the `while i < n` loop): find
a header row, capture title, SKU and breakpoints, emit rows for the block's
subsequent rows until the next row with title and SKU present, and continue
the outer scan at that row.  The `fuel` argument makes the recursion
structural; the scan advances at least one row per step, so `rows.length`
fuel always suffices and the out-of-fuel branch is unreachable. -/
def parseScan (cell : Row → String → CellVal) (kept : List String) :
    ℕ → List Row → Except ParseErr (List TidyRow)
  | _, [] => .ok []
  | 0, _ :: _ => .ok []
  | fuel + 1, r :: rs =>
    if isHeaderB (cell r) then
      if "Quantità" ∈ kept then
        let qs := headerQuantities (cell r) kept
        let blockRows := rs.takeWhile (fun r2 => !(isNewBlock (cell r2)))
        let rest := rs.dropWhile (fun r2 => !(isNewBlock (cell r2)))
        (parseScan cell kept fuel rest).map (fun tail =>
          blockRows.flatMap (fun r2 =>
            emitPositionRow (cell r "Titolo Prodotto") (cell r "SKU") (cell r2) qs) ++ tail)
      else .error .missingQuantityColumn
    else parseScan cell kept fuel rs

instance {ε α : Type} [DecidableEq ε] [DecidableEq α] : DecidableEq (Except ε α) := fun x y =>
  match x, y with
  | .ok a, .ok b =>
    if h : a = b then .isTrue (by rw [h]) else .isFalse (by intro he; cases he; exact h rfl)
  | .error a, .error b =>
    if h : a = b then .isTrue (by rw [h]) else .isFalse (by intro he; cases he; exact h rfl)
  | .ok _, .error _ => .isFalse (by intro he; cases he)
  | .error _, .ok _ => .isFalse (by intro he; cases he)

/-- The rows emitted by `parse_pricing_matrix` before the final sort. -/
def parseRaw (s : Sheet) : Except ParseErr (List TidyRow) :=
  parseScan (fun r c => cellK (keptCols s) r c) (keptCols s) s.rows.length s.rows

/-- Model of `parse_pricing_matrix` (src/parser.py): drop all-`NaN` columns,
scan the rows for product blocks, and sort the emitted rows by
`(Titolo Prodotto, SKU, Posizione Stampa, Quantità)` ascending. -/
def parse_pricing_matrix (s : Sheet) : Except ParseErr (List TidyRow) :=
  (parseRaw s).map sortTidy

/-- The §8 end-to-end example sheet: one header row (`Tee`, `TEE1`,
quantities 1 and 2), one position row (`Fronte`, prices 10.90 and 15.00). -/
def c1sheet : Sheet :=
  ⟨["Titolo Prodotto", "SKU", "Posizione Stampa", "Quantità", "Unnamed: 4"],
   [[("Titolo Prodotto", .text "Tee" none), ("SKU", .text "TEE1" none),
     ("Quantità", .num (mkRat 1 1)), ("Unnamed: 4", .num (mkRat 2 1))],
    [("Posizione Stampa", .text "Fronte" none),
     ("Quantità", .num (mkRat 109 10)), ("Unnamed: 4", .num (mkRat 15 1))]]⟩

/-- The fixed allow-list of quantity breakpoints (`ALLOWED_QT`). -/
def ALLOWED_QT : List ℤ := [1, 2, 3, 4, 5, 6, 7, 8, 9, 10, 15, 20, 50, 100]

/-- Label normalization of `normalize_columns`: `c.strip().lower()`. -/
def normLabel (c : String) : String := pyLower (pyStrip c)

/-- Model of `normalize_columns` (src/streamlit_app.py): rename every column
label; rows index their cells by label, so the keys are renamed alongside. -/
def normalize_columns (s : Sheet) : Sheet :=
  ⟨s.cols.map normLabel, s.rows.map (fun r => r.map (fun p => (normLabel p.1, p.2)))⟩

/-- Model of `Series.str.strip()` on one cell: a text is stripped, an absent
cell stays absent, and a non-text value becomes `NaN` (the pandas `.str`
accessor yields `NaN` on non-strings). -/
def stripCell : CellVal → CellVal
  | .text s nv => .text (pyStrip s) nv
  | _ => .absent

/-- A row of the products table produced by `read_products_df`; only the
fields that the later pipeline reads are kept. -/
structure ProdRow where
  titolo : CellVal
  sku : CellVal
  pos : CellVal
  qty : ℤ
deriving DecidableEq, Repr

/-- Errors of the product/price table readers: the explicit
`ValueError` on missing columns, and the `TypeError` that
`to_numeric(...).astype("Int64")` raises when some value is numeric but not
integral (pandas refuses the unsafe float-to-Int64 cast). -/
inductive ProductsErr : Type
  | missingColumns
  | nonIntegralQuantity
deriving DecidableEq, Repr

/-- Model of `read_products_df` (src/streamlit_app.py) applied to the
already-loaded `Dati` sheet (workbook I/O is the excluded collaborator).
Mirrors, in source order: column normalization, the required-column check,
the `to_numeric(..., errors="coerce").astype("Int64")` conversion — an
error when some quantity is numeric with a non-integral value —, the
`isin(ALLOWED_QT)` row filter, and the `.str.strip()` of the position
column.  `prodRowOf` is the per-row conversion: the row survives exactly
when its quantity is an integral number in `ALLOWED_QT`. -/
def prodRowOf (r : Row) : Option ProdRow :=
  match (Row.cell r "quantità").tryFloat with
  | some f =>
    if f.den = 1 ∧ f.num ∈ ALLOWED_QT then
      some ⟨Row.cell r "titolo prodotto", Row.cell r "sku",
            stripCell (Row.cell r "posizione stampa"), f.num⟩
    else none
  | none => none

def read_products_df (raw : Sheet) : Except ProductsErr (List ProdRow) :=
  if ["titolo prodotto", "sku", "posizione stampa", "quantità"].all
      (fun c => decide (c ∈ (normalize_columns raw).cols)) then
    if (normalize_columns raw).rows.all (fun r =>
        match (Row.cell r "quantità").tryFloat with
        | some f => f.den == 1
        | none => true) then
      .ok ((normalize_columns raw).rows.filterMap prodRowOf)
    else .error .nonIntegralQuantity
  else .error .missingColumns

/-- A row of a tidy prices table (`posizione stampa`, `quantità`, `prezzo`)
after numeric coercion: position cell, integral quantity, numeric price. -/
structure PriceRow where
  pos : CellVal
  qty : ℤ
  prezzo : ℚ
deriving DecidableEq, Repr

/-- Python `str.isdigit` restricted to the ASCII digits that Excel column
labels can carry. -/
def isDigits (s : String) : Bool := !s.data.isEmpty && s.data.all Char.isDigit

/-- Numeric value of a digit string (Python `int(c)` on an `isdigit` label). -/
def digitsToNat (s : String) : ℕ :=
  s.data.foldl (fun a c => 10 * a + (c.toNat - 48)) 0

/-- Qualifying-column test of the matrix branch:
`c != "posizione stampa" and str(c).isdigit() and int(c) in ALLOWED_QT`. -/
def matrixQtyPred (c : String) : Bool :=
  c != "posizione stampa" && isDigits c && decide ((digitsToNat c : ℤ) ∈ ALLOWED_QT)

/-- The qualifying quantity columns of the matrix branch, in column order. -/
def matrixQtyCols (cols : List String) : List String := cols.filter matrixQtyPred

/-- Presence test of the tidy price shape:
`{"posizione stampa", "quantità", "prezzo"}.issubset(cols)`. -/
def tidyColsPresent (cols : List String) : Bool :=
  ["posizione stampa", "quantità", "prezzo"].all (fun c => decide (c ∈ cols))

/-- The matrix-branch melt (`dfp.melt(id_vars=["posizione stampa"],
value_vars=qty_cols, ...)`) followed by the numeric coercions and the
`dropna` on `prezzo`: pandas `melt` stacks the value columns one after the
other, each over all rows; the quantity comes from the column label, the
price from the cell, and pairs without a numeric price are dropped. -/
def meltMatrix (dfp : Sheet) (qcols : List String) : List PriceRow :=
  qcols.flatMap (fun c => dfp.rows.filterMap (fun r =>
    ((Row.cell r c).tryFloat).map (fun p =>
      ⟨stripCell (Row.cell r "posizione stampa"), (digitsToNat c : ℤ), p⟩)))

/-- Model of lines 121-140 of `read_prices_from_excel` — the part after
column normalization: the tidy shape takes priority; otherwise the matrix
shape applies when a `posizione stampa` column plus at least one qualifying
quantity column exist; otherwise no price table is recognized.  The tidy
branch errors like `read_products_df` when a quantity is numeric but not
integral. -/
def readPricesNormalized (dfp : Sheet) : Except ProductsErr (Option (List PriceRow)) :=
  if tidyColsPresent dfp.cols then
    if dfp.rows.all (fun r =>
        match (Row.cell r "quantità").tryFloat with
        | some f => f.den == 1
        | none => true) then
      .ok (some (dfp.rows.filterMap (fun r =>
        match (Row.cell r "quantità").tryFloat, (Row.cell r "prezzo").tryFloat with
        | some f, some p =>
          if f.den = 1 then
            some ⟨stripCell (Row.cell r "posizione stampa"), f.num, p⟩
          else none
        | _, _ => none)))
    else .error .nonIntegralQuantity
  else if "posizione stampa" ∈ dfp.cols then
    if (matrixQtyCols dfp.cols).isEmpty then .ok none
    else .ok (some (meltMatrix dfp (matrixQtyCols dfp.cols)))
  else .ok none

/-- Model of `read_prices_from_excel` on an already-selected candidate price
sheet (sheet discovery in the workbook is the excluded I/O collaborator). -/
def read_prices_from_excel (raw : Sheet) : Except ProductsErr (Option (List PriceRow)) :=
  readPricesNormalized (normalize_columns raw)

/-- Model of the Python dict built by `build_price_lookup`, observable by
the source only through `dict.get`: a finite map as a function. -/
def PriceLookup : Type := (String × ℤ) → Option ℚ

/-- The empty dict. -/
def emptyLookup : PriceLookup := fun _ => none

/-- Model of `lookup[key] = price`. -/
def dictInsert (d : PriceLookup) (k : String × ℤ) (v : ℚ) : PriceLookup :=
  fun k2 => if k2 = k then some v else d k2

/-- Key of one prices row: `(str(r["posizione stampa"]).strip(),
int(r["quantità"]))`. -/
def priceKey (r : PriceRow) : String × ℤ := (pyStrip r.pos.pyStr, r.qty)

/-- Model of `build_price_lookup` (src/streamlit_app.py): iterate the rows
in table order and assign `lookup[key] = float(prezzo)`. -/
def build_price_lookup (rows : List PriceRow) : PriceLookup :=
  rows.foldl (fun d r => dictInsert d (priceKey r) r.prezzo) emptyLookup

/-- Model of `make_variant_sku` (src/streamlit_app.py): lowercase the
position, replace spaces by hyphens and `+` by `plus`, transliterate the
accented vowels, concatenate and truncate to 63 characters. -/
def make_variant_sku (base_sku : String) (qty : ℤ) (pos : String) : String :=
  let pos_slug :=
    pyReplaceChar 'ù' "u" (pyReplaceChar 'ò' "o" (pyReplaceChar 'ì' "i"
      (pyReplaceChar 'é' "e" (pyReplaceChar 'è' "e" (pyReplaceChar 'à' "a"
        (pyReplaceChar '+' "plus" (pyReplaceChar ' ' "-" (pyLower pos))))))))
  pyTake 63 (base_sku ++ "-" ++ toString qty ++ "-" ++ pos_slug)

/-- The variant record handed to the commerce-API collaborator. -/
structure Variant where
  option1 : ℤ
  option2 : String
  price : String
  sku : String
  inventory_management : String
  inventory_quantity : ℤ
  taxable : Bool
deriving DecidableEq, Repr

/-- Model of `build_variants_for_product` (src/streamlit_app.py).  The
second component collects the `(position, quantity)` combinations whose
price is missing from the lookup; the source reports each of them through
one `st.warning` call while skipping the variant. -/
def build_variants_for_product (rows : List ProdRow) (lookup : PriceLookup) :
    List Variant × List (String × ℤ) :=
  match rows with
  | [] => ([], [])
  | r :: rs =>
    let rest := build_variants_for_product rs lookup
    let pos := pyStrip r.pos.pyStr
    match lookup (pos, r.qty) with
    | none => (rest.1, (pos, r.qty) :: rest.2)
    | some price =>
      (⟨r.qty, pos, pyFormat2 price, make_variant_sku r.sku.pyStr r.qty pos,
        "shopify", 9999, true⟩ :: rest.1, rest.2)

/-- Specification twin of the Variant Key/SKU Deriver, following the words
of §4.5: lowercase the position, replace spaces with a hyphen, replace `+`
with the literal `plus`, transliterate the fixed set of accented Latin
vowels to their unaccented equivalents, concatenate as
`base-quantity-slug`, then truncate to at most 63 characters. -/
def variantSkuSpec (base_sku : String) (qty : ℤ) (pos : String) : String :=
  let slug :=
    pyReplaceChar 'ù' "u" (pyReplaceChar 'ò' "o" (pyReplaceChar 'ì' "i"
      (pyReplaceChar 'é' "e" (pyReplaceChar 'è' "e" (pyReplaceChar 'à' "a"
        (pyReplaceChar '+' "plus" (pyReplaceChar ' ' "-" (pyLower pos))))))))
  pyTake 63 (base_sku ++ "-" ++ toString qty ++ "-" ++ slug)

/-- Specification twin of the melter output, following the words of §4.3:
one tidy row per (position row, qualifying column) pair whose cell is
numeric, enumerated row-major. -/
def meltSpecRows (dfp : Sheet) (qcols : List String) : List PriceRow :=
  dfp.rows.flatMap (fun r => qcols.filterMap (fun c =>
    ((Row.cell r c).tryFloat).map (fun p =>
      ⟨stripCell (Row.cell r "posizione stampa"), (digitsToNat c : ℤ), p⟩)))

/-- Specification twin of the price lookup, following the words of §4.4:
the price of the last row in iteration order whose
`(trimmed position, integer quantity)` key matches. -/
def lastPriceSpec (rows : List PriceRow) (k : String × ℤ) : Option ℚ :=
  match rows with
  | [] => none
  | r :: rs =>
    match lastPriceSpec rs k with
    | some p => some p
    | none => if (pyStrip r.pos.pyStr, r.qty) = k then some r.prezzo else none



/-- Totality of the four-part sort comparison. -/
theorem tidyLE_total (a b : TidyRow) : tidyLE a b = true ∨ tidyLE b a = true := by
  unfold tidyLE
  rcases le_total (tidyKey a) (tidyKey b) with h | h
  · exact Or.inl (decide_eq_true h)
  · exact Or.inr (decide_eq_true h)

/-- Transitivity of the four-part sort comparison. -/
theorem tidyLE_trans {a b c : TidyRow} (h1 : tidyLE a b = true)
    (h2 : tidyLE b c = true) : tidyLE a c = true := by
  unfold tidyLE at h1 h2 ⊢
  exact decide_eq_true (le_trans (of_decide_eq_true h1) (of_decide_eq_true h2))

/-- Membership through `insertTidy`. -/
theorem mem_insertTidy {x a : TidyRow} {l : List TidyRow}
    (h : x ∈ insertTidy a l) : x = a ∨ x ∈ l := by
  induction l with
  | nil =>
    simp only [insertTidy, List.mem_singleton] at h
    exact Or.inl h
  | cons b l ih =>
    simp only [insertTidy] at h
    by_cases hle : tidyLE a b = true
    · rw [if_pos hle] at h
      exact List.mem_cons.mp h
    · rw [if_neg hle] at h
      rcases List.mem_cons.mp h with h1 | h1
      · exact Or.inr (h1 ▸ List.mem_cons_self b l)
      · rcases ih h1 with h2 | h2
        · exact Or.inl h2
        · exact Or.inr (List.mem_cons_of_mem b h2)

/-- Inserting into a sorted list keeps it sorted. -/
theorem pairwise_insertTidy {a : TidyRow} {l : List TidyRow}
    (h : l.Pairwise (fun x y => tidyLE x y = true)) :
    (insertTidy a l).Pairwise (fun x y => tidyLE x y = true) := by
  induction l with
  | nil => simp [insertTidy]
  | cons b l ih =>
    rcases List.pairwise_cons.mp h with ⟨hb, hl⟩
    by_cases hle : tidyLE a b = true
    · simp only [insertTidy, if_pos hle]
      refine List.pairwise_cons.mpr ⟨?_, h⟩
      intro x hx
      rcases List.mem_cons.mp hx with h1 | h1
      · exact h1 ▸ hle
      · exact tidyLE_trans hle (hb x h1)
    · simp only [insertTidy, if_neg hle]
      refine List.pairwise_cons.mpr ⟨?_, ih hl⟩
      intro x hx
      rcases mem_insertTidy hx with h1 | h1
      · subst h1
        exact (tidyLE_total x b).resolve_left hle
      · exact hb x h1

/-- The model sort produces a sorted list. -/
theorem sortTidy_pairwise (l : List TidyRow) :
    (sortTidy l).Pairwise (fun x y => tidyLE x y = true) := by
  induction l with
  | nil => simp [sortTidy]
  | cons a l ih => exact pairwise_insertTidy ih

/-- Sorting an already sorted list is the identity. -/
theorem sortTidy_eq_self {l : List TidyRow}
    (h : l.Pairwise (fun x y => tidyLE x y = true)) : sortTidy l = l := by
  induction l with
  | nil => rfl
  | cons a l ih =>
    rcases List.pairwise_cons.mp h with ⟨ha, hl⟩
    show insertTidy a (sortTidy l) = a :: l
    rw [ih hl]
    cases l with
    | nil => rfl
    | cons b l2 =>
      show insertTidy a (b :: l2) = a :: b :: l2
      simp only [insertTidy, if_pos (ha b (List.mem_cons_self b l2))]

/-- Insertion permutes with consing. -/
theorem insertTidy_perm (a : TidyRow) (l : List TidyRow) :
    (insertTidy a l).Perm (a :: l) := by
  induction l with
  | nil => exact List.Perm.refl _
  | cons b l ih =>
    by_cases hle : tidyLE a b = true
    · simp only [insertTidy, if_pos hle]
      exact List.Perm.refl _
    · simp only [insertTidy, if_neg hle]
      exact (ih.cons b).trans (List.Perm.swap a b l)

/-- The model sort is a permutation: no row is dropped or merged. -/
theorem sortTidy_perm (l : List TidyRow) : (sortTidy l).Perm l := by
  induction l with
  | nil => exact List.Perm.refl _
  | cons a l ih => exact (insertTidy_perm a (sortTidy l)).trans (ih.cons a)

/-- With the quantity column available, the block scan never fails: cell
content can only steer which rows are emitted. -/
theorem parseScan_ok (cell : Row → String → CellVal) (kept : List String)
    (hq : "Quantità" ∈ kept) :
    ∀ (fuel : ℕ) (rows : List Row), ∃ out, parseScan cell kept fuel rows = .ok out := by
  intro fuel
  induction fuel with
  | zero =>
    intro rows
    cases rows with
    | nil => exact ⟨[], rfl⟩
    | cons r rs => exact ⟨[], rfl⟩
  | succ fuel ih =>
    intro rows
    cases rows with
    | nil => exact ⟨[], rfl⟩
    | cons r rs =>
      by_cases hh : isHeaderB (cell r) = true
      · rcases ih (rs.dropWhile (fun r2 => !(isNewBlock (cell r2)))) with ⟨out, hout⟩
        have hstep : parseScan cell kept (fuel + 1) (r :: rs) =
            (parseScan cell kept fuel
              (rs.dropWhile (fun r2 => !(isNewBlock (cell r2))))).map
                (fun tail => ((rs.takeWhile (fun r2 => !(isNewBlock (cell r2)))).flatMap
                  (fun r2 => emitPositionRow (cell r "Titolo Prodotto") (cell r "SKU")
                    (cell r2) (headerQuantities (cell r) kept))) ++ tail) := by
          simp only [parseScan, if_pos hh, if_pos hq]
        rw [hstep, hout]
        exact ⟨_, rfl⟩
      · have hstep : parseScan cell kept (fuel + 1) (r :: rs) =
            parseScan cell kept fuel rs := by
          simp only [parseScan, if_neg hh]
        rw [hstep]
        exact ih rs

/-- Without the quantity column, the scan fails as soon as any header row
exists among the remaining rows. -/
theorem parseScan_error (cell : Row → String → CellVal) (kept : List String)
    (hq : "Quantità" ∉ kept) :
    ∀ (fuel : ℕ) (rows : List Row), rows.length ≤ fuel →
      (∃ r ∈ rows, isHeaderB (cell r) = true) →
      parseScan cell kept fuel rows = .error .missingQuantityColumn := by
  intro fuel
  induction fuel with
  | zero =>
    intro rows hlen hex
    cases rows with
    | nil =>
      rcases hex with ⟨r, hr, _⟩
      exact absurd hr (List.not_mem_nil r)
    | cons r rs => simp at hlen
  | succ fuel ih =>
    intro rows hlen hex
    cases rows with
    | nil =>
      rcases hex with ⟨r, hr, _⟩
      exact absurd hr (List.not_mem_nil r)
    | cons r rs =>
      by_cases hh : isHeaderB (cell r) = true
      · simp only [parseScan, if_pos hh, if_neg hq]
      · rcases hex with ⟨r2, hr2, hhr2⟩
        rcases List.mem_cons.mp hr2 with he | he
        · exact absurd (he ▸ hhr2) hh
        · have hstep : parseScan cell kept (fuel + 1) (r :: rs) =
              parseScan cell kept fuel rs := by
            simp only [parseScan, if_neg hh]
          rw [hstep]
          refine ih rs ?_ ⟨r2, he, hhr2⟩
          simp only [List.length_cons] at hlen
          omega

/-- Length of a `filterMap` as a count of hits. -/
theorem length_filterMap_countP {α β : Type} (f : α → Option β) (l : List α) :
    (l.filterMap f).length = l.countP (fun a => (f a).isSome) := by
  induction l with
  | nil => rfl
  | cons a l ih =>
    cases h : f a with
    | none => simp [List.filterMap_cons, h, List.countP_cons, ih]
    | some b => simp [List.filterMap_cons, h, List.countP_cons, ih]

/-- A `filterMap` over a cons, phrased with `Option.toList`. -/
theorem filterMap_cons_toList {α β : Type} (f : α → Option β) (a : α) (l : List α) :
    (a :: l).filterMap f = (f a).toList ++ l.filterMap f := by
  cases h : f a <;> simp [List.filterMap_cons, h, Option.toList]

/-- A `filterMap` is the `flatMap` of the optional singletons. -/
theorem filterMap_eq_flatMap_toList {α β : Type} (f : α → Option β) (l : List α) :
    l.filterMap f = l.flatMap (fun a => (f a).toList) := by
  induction l with
  | nil => rfl
  | cons a l ih => cases h : f a <;> simp [List.filterMap_cons, h, ih, Option.toList]

/-- A `flatMap` of empty lists is empty. -/
theorem flatMap_const_nil {β γ : Type} (l : List β) :
    (l.flatMap fun _ => ([] : List γ)) = [] := by
  induction l with
  | nil => rfl
  | cons b l ih => simp [ih]

/-- Exchanging the two axes of a rectangular `flatMap`/`filterMap` traversal
permutes the output. -/
theorem flatMap_filterMap_swap_perm {α β γ : Type} (as : List α) (bs : List β)
    (f : α → β → Option γ) :
    (as.flatMap fun a => bs.filterMap (f a)).Perm
      (bs.flatMap fun b => as.filterMap (fun a => f a b)) := by
  induction as with
  | nil =>
    simp only [List.flatMap_nil, List.filterMap_nil, flatMap_const_nil]
    exact List.Perm.refl _
  | cons a as ih =>
    simp only [List.flatMap_cons, filterMap_cons_toList]
    refine List.Perm.trans ?_
      (List.flatMap_append_perm bs (fun b => (f a b).toList)
        (fun b => as.filterMap (fun a2 => f a2 b)))
    rw [← filterMap_eq_flatMap_toList]
    exact ih.append_left _

/-- A pair whose image is `none` can be dropped from a `filterMap` without
changing the result. -/
theorem filterMap_drop_none {α β : Type} [DecidableEq α] (f : α → Option β)
    (a : α) (h : f a = none) :
    ∀ l : List α, l.filterMap f = (l.filter (fun x => decide (x ≠ a))).filterMap f := by
  intro l
  induction l with
  | nil => rfl
  | cons x l ih =>
    by_cases hx : x = a
    · subst hx
      simp [List.filter_cons, List.filterMap_cons, h, ih]
    · cases hfx : f x <;> simp [List.filter_cons, List.filterMap_cons, hx, hfx, ih]

/-- Every variant in the output of `build_variants_for_product` found its
price: its own `(position, quantity)` key hits the lookup. -/
theorem bv_variant_key_isSome {rows : List ProdRow} {lk : PriceLookup} {v : Variant}
    (hv : v ∈ (build_variants_for_product rows lk).1) :
    (lk (v.option2, v.option1)).isSome = true := by
  induction rows with
  | nil => simp [build_variants_for_product] at hv
  | cons r rs ih =>
    cases h : lk (pyStrip r.pos.pyStr, r.qty) with
    | none =>
      simp only [build_variants_for_product, h] at hv
      exact ih hv
    | some p =>
      simp only [build_variants_for_product, h] at hv
      rcases List.mem_cons.mp hv with he | he
      · subst he
        simp [h]
      · exact ih he

/-- Every variant's quantity comes from some product row. -/
theorem bv_variant_qty_from_row {rows : List ProdRow} {lk : PriceLookup} {v : Variant}
    (hv : v ∈ (build_variants_for_product rows lk).1) :
    ∃ r ∈ rows, v.option1 = r.qty := by
  induction rows with
  | nil => simp [build_variants_for_product] at hv
  | cons r rs ih =>
    cases h : lk (pyStrip r.pos.pyStr, r.qty) with
    | none =>
      simp only [build_variants_for_product, h] at hv
      rcases ih hv with ⟨r2, hr2, hq⟩
      exact ⟨r2, List.mem_cons_of_mem r hr2, hq⟩
    | some p =>
      simp only [build_variants_for_product, h] at hv
      rcases List.mem_cons.mp hv with he | he
      · exact ⟨r, List.mem_cons_self r rs, by rw [he]⟩
      · rcases ih he with ⟨r2, hr2, hq⟩
        exact ⟨r2, List.mem_cons_of_mem r hr2, hq⟩

/-- One report is collected per row whose key misses the lookup. -/
theorem bv_reports_length (rows : List ProdRow) (lk : PriceLookup) :
    (build_variants_for_product rows lk).2.length =
      rows.countP (fun r => (lk (pyStrip r.pos.pyStr, r.qty)).isNone) := by
  induction rows with
  | nil => rfl
  | cons r rs ih =>
    cases h : lk (pyStrip r.pos.pyStr, r.qty) with
    | none => simp [build_variants_for_product, h, List.countP_cons, ih]
    | some p => simp [build_variants_for_product, h, List.countP_cons, ih]

/-- The key of every row whose price is missing is reported. -/
theorem bv_report_mem {rows : List ProdRow} {lk : PriceLookup} {r : ProdRow}
    (hr : r ∈ rows) (h : lk (pyStrip r.pos.pyStr, r.qty) = none) :
    (pyStrip r.pos.pyStr, r.qty) ∈ (build_variants_for_product rows lk).2 := by
  induction rows with
  | nil => exact absurd hr (List.not_mem_nil r)
  | cons r0 rs ih =>
    rcases List.mem_cons.mp hr with he | he
    · subst he
      simp [build_variants_for_product, h]
    · cases h0 : lk (pyStrip r0.pos.pyStr, r0.qty) with
      | none =>
        simp only [build_variants_for_product, h0]
        exact List.mem_cons_of_mem _ (ih he)
      | some p =>
        simp only [build_variants_for_product, h0]
        exact ih he

/-- Folding the dict insertions: the resulting `get` returns the last
matching row's price, falling back to the initial dict. -/
theorem build_price_lookup_aux :
    ∀ (rows : List PriceRow) (d : PriceLookup) (k : String × ℤ),
      (rows.foldl (fun d2 r => dictInsert d2 (priceKey r) r.prezzo) d) k =
        match lastPriceSpec rows k with
        | some p => some p
        | none => d k := by
  intro rows
  induction rows with
  | nil => intro d k; rfl
  | cons r rs ih =>
    intro d k
    show (rs.foldl (fun d2 r2 => dictInsert d2 (priceKey r2) r2.prezzo)
        (dictInsert d (priceKey r) r.prezzo)) k = _
    rw [ih]
    cases h : lastPriceSpec rs k with
    | some p => simp [lastPriceSpec, h]
    | none =>
      simp only [lastPriceSpec, h]
      by_cases hk : (pyStrip r.pos.pyStr, r.qty) = k
      · simp only [dictInsert, priceKey, if_pos hk.symm, if_pos hk]
      · rw [if_neg hk]
        exact if_neg (fun h2 : k = (pyStrip r.pos.pyStr, r.qty) => hk h2.symm)

/-- C1: on the two-row input whose header row has title `Tee`, sku `TEE1`,
no position, quantity 1 in the `Quantità` column and 2 in the following
unnamed column, and whose next row has no title/sku, position `Fronte`,
10.90 in the `Quantità` column and 15.00 in the unnamed column, the block
parser emits exactly the two tidy rows `("Tee","TEE1","Fronte",1,10.90)`
and `("Tee","TEE1","Fronte",2,15.00)` and nothing else. -/
theorem c1_end_to_end_example :
    parse_pricing_matrix c1sheet =
      .ok [⟨.text "Tee" none, .text "TEE1" none, "Fronte", 1, mkRat 109 10⟩,
           ⟨.text "Tee" none, .text "TEE1" none, "Fronte", 2, mkRat 15 1⟩] := by
  decide

/-- A sheet whose product block repeats the `(position, quantity)` pair
`("Fronte", 1)` on two position rows with different prices. -/
def c2sheet : Sheet :=
  ⟨["Titolo Prodotto", "SKU", "Posizione Stampa", "Quantità"],
   [[("Titolo Prodotto", .text "Tee" none), ("SKU", .text "TEE1" none),
     ("Quantità", .num (mkRat 1 1))],
    [("Posizione Stampa", .text "Fronte" none), ("Quantità", .num (mkRat 10 1))],
    [("Posizione Stampa", .text "Fronte" none), ("Quantità", .num (mkRat 12 1))]]⟩

/-- First duplicate-pair output row of `c2sheet`. -/
def c2rowA : TidyRow := ⟨.text "Tee" none, .text "TEE1" none, "Fronte", 1, mkRat 10 1⟩

/-- Second duplicate-pair output row of `c2sheet`. -/
def c2rowB : TidyRow := ⟨.text "Tee" none, .text "TEE1" none, "Fronte", 1, mkRat 12 1⟩

/-- C2 counterexample: the block parser's table can hold, for one fixed
`(title, sku)`, two rows with the same `(position, quantity)` pair and two
different prices — the parser does not deduplicate, so the "no duplicates,
last-seen price wins" invariant fails on its output. -/
theorem c2_counterexample :
    parse_pricing_matrix c2sheet = .ok [c2rowA, c2rowB]
    ∧ c2rowA.titolo = c2rowB.titolo ∧ c2rowA.sku = c2rowB.sku
    ∧ (c2rowA.pos, c2rowA.qty) = (c2rowB.pos, c2rowB.qty)
    ∧ c2rowA.prezzo ≠ c2rowB.prezzo := by
  decide

/-- Reading a tidy row of the parser's output as a row of a tidy price
table. -/
def tidyToPriceRow (t : TidyRow) : PriceRow := ⟨.text t.pos none, t.qty, t.prezzo⟩

/-- C2 amended: the parser keeps every emitted row — its final sort is a
permutation of the raw emission, so a `(position, quantity)` pair repeated
in the source yields one output row per occurrence; the last-seen price
wins only once `build_price_lookup` indexes such a table, as on the
duplicate pair of `c2sheet`. -/
theorem c2_duplicates_retained :
    (∀ (s : Sheet) (out : List TidyRow), parse_pricing_matrix s = .ok out →
        ∃ mid, parseRaw s = .ok mid ∧ out.Perm mid)
    ∧ parse_pricing_matrix c2sheet = .ok [c2rowA, c2rowB]
    ∧ build_price_lookup ([c2rowA, c2rowB].map tidyToPriceRow) ("Fronte", 1) =
        some (mkRat 12 1) := by
  refine ⟨?_, by decide, by decide⟩
  intro s out h
  cases hraw : parseRaw s with
  | error e =>
    unfold parse_pricing_matrix at h
    rw [hraw] at h
    simp [Except.map] at h
  | ok mid =>
    unfold parse_pricing_matrix at h
    rw [hraw] at h
    simp only [Except.map, Except.ok.injEq] at h
    exact ⟨mid, rfl, h ▸ sortTidy_perm mid⟩

/-- C2 witness: the general permutation statement applied to `c2sheet`. -/
theorem c2_witness :
    ∃ mid, parseRaw c2sheet = .ok mid ∧ ([c2rowA, c2rowB] : List TidyRow).Perm mid :=
  c2_duplicates_retained.1 c2sheet [c2rowA, c2rowB] (by decide)

/-- C3: inside a block, a breakpoint whose price cell in a position row is
absent or non-numeric contributes nothing from that row (dropping it from
the captured breakpoints changes nothing), every other breakpoint of the
same row with a numeric price cell is still emitted, and a malformed cell
never aborts the parse: whenever the kept columns include `Quantità`, the
whole parse returns a result, whatever the cells hold. -/
theorem c3_malformed_cell_skipped :
    (∀ (titolo sku : CellVal) (cell : String → CellVal) (qs : List (String × ℤ))
        (c : String) (q : ℤ), (c, q) ∈ qs → (cell c).tryFloat = none →
        emitPositionRow titolo sku cell qs =
          emitPositionRow titolo sku cell (qs.filter (fun cq => decide (cq ≠ (c, q))))
        ∧ ∀ (c2 : String) (q2 : ℤ) (p : ℚ), (c2, q2) ∈ qs →
            (cell c2).tryFloat = some p → (cell "Posizione Stampa").notna = true →
            (⟨titolo, sku, pyStrip (cell "Posizione Stampa").pyStr, q2, pyRound2 p⟩ : TidyRow)
              ∈ emitPositionRow titolo sku cell qs)
    ∧ (∀ s : Sheet, "Quantità" ∈ keptCols s →
        ∃ out, parse_pricing_matrix s = .ok out) := by
  constructor
  · intro titolo sku cell qs c q hmem hbad
    constructor
    · unfold emitPositionRow
      by_cases hpos : (cell "Posizione Stampa").notna = true
      · rw [if_pos hpos, if_pos hpos]
        exact filterMap_drop_none _ (c, q) (by simp [hbad]) qs
      · rw [if_neg hpos, if_neg hpos]
    · intro c2 q2 p hmem2 hval hpos
      unfold emitPositionRow
      rw [if_pos hpos]
      exact List.mem_filterMap.mpr ⟨(c2, q2), hmem2, by simp [hval]⟩
  · intro s hq
    rcases parseScan_ok (fun r c => cellK (keptCols s) r c) (keptCols s) hq
      s.rows.length s.rows with ⟨out, hout⟩
    refine ⟨sortTidy out, ?_⟩
    unfold parse_pricing_matrix parseRaw
    rw [hout]
    rfl

/-- A position-row cell assignment exercising C3: the captured breakpoint
column `Q1` holds a non-numeric text, `Q2` a numeric price. -/
def c3cell : String → CellVal := fun c =>
  if c = "Posizione Stampa" then .text "Fronte" none
  else if c = "Q1" then .text "n/a" none
  else if c = "Q2" then .num (mkRat 5 1)
  else .absent

/-- The captured breakpoints for the C3 witness. -/
def c3qs : List (String × ℤ) := [("Q1", 1), ("Q2", 2)]

/-- C3 witness: the skip/emit statement applied at a concrete malformed
cell, and the whole-parse survival applied to the example sheet. -/
theorem c3_witness :
    emitPositionRow (.text "T" none) (.text "S" none) c3cell c3qs =
      emitPositionRow (.text "T" none) (.text "S" none) c3cell
        (c3qs.filter (fun cq => decide (cq ≠ ("Q1", 1))))
    ∧ (⟨.text "T" none, .text "S" none, pyStrip (c3cell "Posizione Stampa").pyStr, 2,
        pyRound2 (mkRat 5 1)⟩ : TidyRow)
        ∈ emitPositionRow (.text "T" none) (.text "S" none) c3cell c3qs
    ∧ ∃ out, parse_pricing_matrix c1sheet = .ok out := by
  have h1 := (c3_malformed_cell_skipped.1 (.text "T" none) (.text "S" none)
    c3cell c3qs "Q1" 1 (by decide) (by decide))
  exact ⟨h1.1, h1.2 "Q2" 2 (mkRat 5 1) (by decide) (by decide) (by decide),
    c3_malformed_cell_skipped.2 c1sheet (by decide)⟩

/-- C4 amended: the `MissingQuantityColumn` failure is raised — fatally for
the whole parse — exactly when the scan reaches a product header row while
no `Quantità` column survives empty-column removal; a sheet without a
quantity column but also without any header row parses to a result
instead. -/
theorem c4_missing_quantity_fatal_on_header (s : Sheet) (r : Row)
    (hr : r ∈ s.rows)
    (hh : isHeaderB (fun c => cellK (keptCols s) r c) = true)
    (hq : "Quantità" ∉ keptCols s) :
    parse_pricing_matrix s = .error .missingQuantityColumn := by
  have he := parseScan_error (fun r2 c => cellK (keptCols s) r2 c) (keptCols s) hq
    s.rows.length s.rows (le_refl _) ⟨r, hr, hh⟩
  unfold parse_pricing_matrix parseRaw
  rw [he]
  rfl

/-- A sheet with no `Quantità` column and no header row: one position-only
row. -/
def c4sheet : Sheet :=
  ⟨["Posizione Stampa"], [[("Posizione Stampa", .text "Fronte" none)]]⟩

/-- C4 counterexample: a table without any `Quantità` column on which
`parse_pricing_matrix` does not fail — it returns an (empty) result, so the
missing column is not unconditionally fatal. -/
theorem c4_counterexample :
    "Quantità" ∉ c4sheet.cols ∧ parse_pricing_matrix c4sheet = .ok [] := by
  exact ⟨by decide, by decide⟩

/-- A header-only sheet without a `Quantità` column. -/
def c4hdrSheet : Sheet :=
  ⟨["Titolo Prodotto", "SKU"],
   [[("Titolo Prodotto", .text "A" none), ("SKU", .text "B" none)]]⟩

/-- C4 witness: the amended failure statement applied to a concrete
header-bearing sheet. -/
theorem c4_witness :
    parse_pricing_matrix c4hdrSheet = .error .missingQuantityColumn :=
  c4_missing_quantity_fatal_on_header c4hdrSheet
    [("Titolo Prodotto", .text "A" none), ("SKU", .text "B" none)]
    (by decide) (by decide) (by decide)

/-- C5: every successful parse result is sorted ascending by the
`(title, sku, position, quantity)` key, re-sorting it by that key is a
no-op, and an empty input sheet parses to an empty result rather than an
error. -/
theorem c5_sorted_output :
    (∀ (s : Sheet) (out : List TidyRow), parse_pricing_matrix s = .ok out →
        out.Pairwise (fun a b => tidyLE a b = true) ∧ sortTidy out = out)
    ∧ (∀ cols : List String, parse_pricing_matrix ⟨cols, []⟩ = .ok []) := by
  constructor
  · intro s out h
    cases hraw : parseRaw s with
    | error e =>
      unfold parse_pricing_matrix at h
      rw [hraw] at h
      simp [Except.map] at h
    | ok mid =>
      unfold parse_pricing_matrix at h
      rw [hraw] at h
      simp only [Except.map, Except.ok.injEq] at h
      subst h
      exact ⟨sortTidy_pairwise mid, sortTidy_eq_self (sortTidy_pairwise mid)⟩
  · intro cols
    rfl

/-- C5 witness: sortedness and sort-idempotence applied to the parse of the
end-to-end example sheet. -/
theorem c5_witness :
    ([⟨.text "Tee" none, .text "TEE1" none, "Fronte", 1, mkRat 109 10⟩,
      ⟨.text "Tee" none, .text "TEE1" none, "Fronte", 2, mkRat 15 1⟩] : List TidyRow).Pairwise
        (fun a b => tidyLE a b = true)
    ∧ sortTidy [⟨.text "Tee" none, .text "TEE1" none, "Fronte", 1, mkRat 109 10⟩,
        ⟨.text "Tee" none, .text "TEE1" none, "Fronte", 2, mkRat 15 1⟩] =
      [⟨.text "Tee" none, .text "TEE1" none, "Fronte", 1, mkRat 109 10⟩,
       ⟨.text "Tee" none, .text "TEE1" none, "Fronte", 2, mkRat 15 1⟩] :=
  c5_sorted_output.1 c1sheet _ (by decide)

/-- Removing a non-qualifying label leaves the qualifying columns
unchanged. -/
theorem matrixQtyCols_filter_ne (cols : List String) (c2 : String)
    (h : matrixQtyPred c2 = false) :
    matrixQtyCols (cols.filter (fun x => x != c2)) = matrixQtyCols cols := by
  unfold matrixQtyCols
  induction cols with
  | nil => rfl
  | cons a l ih =>
    by_cases ha : a = c2
    · subst ha
      simp [List.filter_cons, h, ih]
    · have hne : (a != c2) = true := bne_iff_ne.mpr ha
      cases hp : matrixQtyPred a <;> simp [List.filter_cons, hne, hp, ih]

/-- C6: on a matrix-shaped price sheet (tidy columns absent, a
`posizione stampa` column and at least one qualifying quantity column
present), the melter returns one tidy row per (position row, qualifying
column) pair whose cell is numeric — its output is a permutation of the
row-major specification enumeration —, its row count is the number of
numeric cells under qualifying columns, and a column whose label is not a
qualifying quantity label is ignored entirely: removing it does not change
the result. -/
theorem c6_matrix_melter (dfp : Sheet)
    (h1 : tidyColsPresent dfp.cols = false)
    (h2 : "posizione stampa" ∈ dfp.cols)
    (h3 : (matrixQtyCols dfp.cols).isEmpty = false) :
    ∃ out, readPricesNormalized dfp = .ok (some out)
      ∧ out.Perm (meltSpecRows dfp (matrixQtyCols dfp.cols))
      ∧ out.length = ((matrixQtyCols dfp.cols).map (fun c =>
          dfp.rows.countP (fun r => ((Row.cell r c).tryFloat).isSome))).sum
      ∧ ∀ c2 : String, c2 ≠ "posizione stampa" → matrixQtyPred c2 = false →
          readPricesNormalized ⟨dfp.cols.filter (fun x => x != c2), dfp.rows⟩ =
            readPricesNormalized dfp := by
  refine ⟨meltMatrix dfp (matrixQtyCols dfp.cols), ?_, ?_, ?_, ?_⟩
  · unfold readPricesNormalized
    rw [if_neg (show ¬ tidyColsPresent dfp.cols = true by simp [h1]), if_pos h2,
      if_neg (show ¬ (matrixQtyCols dfp.cols).isEmpty = true by simp [h3])]
  · unfold meltMatrix meltSpecRows
    exact flatMap_filterMap_swap_perm _ _ _
  · unfold meltMatrix
    rw [List.length_flatMap]
    have hfe : (List.length ∘ fun c : String => dfp.rows.filterMap
        (fun r => ((Row.cell r c).tryFloat).map (fun p =>
          (⟨stripCell (Row.cell r "posizione stampa"), (digitsToNat c : ℤ), p⟩ : PriceRow)))) =
        fun c => dfp.rows.countP (fun r => ((Row.cell r c).tryFloat).isSome) := by
      funext c
      show (dfp.rows.filterMap _).length = _
      rw [length_filterMap_countP]
      refine List.countP_congr ?_
      intro r hr
      cases h : (Row.cell r c).tryFloat <;> simp [h]
    rw [hfe]
  · intro c2 hc2pos hc2pred
    have htidy2 : tidyColsPresent (dfp.cols.filter (fun x => x != c2)) = false := by
      cases hT : tidyColsPresent (dfp.cols.filter (fun x => x != c2)) with
      | false => rfl
      | true =>
        exfalso
        have hall := List.all_eq_true.mp hT
        have hAll : tidyColsPresent dfp.cols = true := by
          apply List.all_eq_true.mpr
          intro x hx
          have hx2 := hall x hx
          exact decide_eq_true (List.mem_of_mem_filter (of_decide_eq_true hx2))
        rw [hAll] at h1
        cases h1
    have hpos2 : "posizione stampa" ∈ dfp.cols.filter (fun x => x != c2) := by
      apply List.mem_filter.mpr
      exact ⟨h2, bne_iff_ne.mpr (fun he => hc2pos he.symm)⟩
    have hq : matrixQtyCols (dfp.cols.filter (fun x => x != c2)) = matrixQtyCols dfp.cols :=
      matrixQtyCols_filter_ne dfp.cols c2 hc2pred
    unfold readPricesNormalized
    dsimp only
    rw [if_neg (show ¬ tidyColsPresent (dfp.cols.filter (fun x => x != c2)) = true by
          simp [htidy2]),
        if_neg (show ¬ tidyColsPresent dfp.cols = true by simp [h1]),
        if_pos hpos2, if_pos h2, hq]
    rfl

/-- A matrix-shaped price sheet with quantity columns `1` and `2`, an
annotation column `Note`, and one non-numeric price cell. -/
def c6sheet : Sheet :=
  ⟨["posizione stampa", "1", "2", "Note"],
   [[("posizione stampa", .text "Fronte" none), ("1", .num (mkRat 10 1)),
     ("2", .text "n/a" none), ("Note", .text "promo" none)],
    [("posizione stampa", .text "Retro" none), ("1", .num (mkRat 12 1)),
     ("2", .num (mkRat 20 1))]]⟩

/-- C6 witness: the melter statement applied to a concrete matrix sheet. -/
theorem c6_witness :
    tidyColsPresent c6sheet.cols = false
    ∧ "posizione stampa" ∈ c6sheet.cols
    ∧ (matrixQtyCols c6sheet.cols).isEmpty = false
    ∧ ∃ out, readPricesNormalized c6sheet = .ok (some out)
        ∧ out.Perm (meltSpecRows c6sheet (matrixQtyCols c6sheet.cols))
        ∧ out.length = ((matrixQtyCols c6sheet.cols).map (fun c =>
            c6sheet.rows.countP (fun r => ((Row.cell r c).tryFloat).isSome))).sum
        ∧ ∀ c2 : String, c2 ≠ "posizione stampa" → matrixQtyPred c2 = false →
            readPricesNormalized ⟨c6sheet.cols.filter (fun x => x != c2), c6sheet.rows⟩ =
              readPricesNormalized c6sheet :=
  ⟨by decide, by decide, by decide,
    c6_matrix_melter c6sheet (by decide) (by decide) (by decide)⟩

/-- C7: the variant key is exactly the specified slug algorithm, never
exceeds 63 characters, and is deterministic. -/
theorem c7_variant_sku (base_sku : String) (qty : ℤ) (pos : String)
    (_h : 0 < qty) :
    make_variant_sku base_sku qty pos = variantSkuSpec base_sku qty pos
    ∧ (make_variant_sku base_sku qty pos).length ≤ 63
    ∧ make_variant_sku base_sku qty pos = make_variant_sku base_sku qty pos := by
  refine ⟨rfl, ?_, rfl⟩
  show (pyTake 63 _).length ≤ 63
  unfold pyTake
  show (List.take 63 _).length ≤ 63
  rw [List.length_take]
  exact min_le_left _ _

/-- C7 witness: the derivation statement at the spec's concrete input. -/
theorem c7_witness :
    0 < (20 : ℤ)
    ∧ (make_variant_sku "LONGBASE12345678901234567890" 20 "Fronte + Retro" =
          variantSkuSpec "LONGBASE12345678901234567890" 20 "Fronte + Retro"
        ∧ (make_variant_sku "LONGBASE12345678901234567890" 20 "Fronte + Retro").length ≤ 63
        ∧ make_variant_sku "LONGBASE12345678901234567890" 20 "Fronte + Retro" =
            make_variant_sku "LONGBASE12345678901234567890" 20 "Fronte + Retro") :=
  ⟨by decide, c7_variant_sku "LONGBASE12345678901234567890" 20 "Fronte + Retro" (by decide)⟩

/-- The product row of the C8 scenario: it requests `("Retro", 1)`. -/
def c8row : ProdRow := ⟨.text "Prod" none, .text "SKU1" none, .text "Retro" none, 1⟩

/-- The C8 scenario lookup, built from the single price row
`("Fronte", 1, 12.90)`. -/
def c8lookup : PriceLookup := build_price_lookup [⟨.text "Fronte" none, 1, mkRat 129 10⟩]

/-- C8: a product row whose `(trimmed position, quantity)` key misses the
price lookup is dropped — no variant with that key is produced — and its
key is reported, one report per skipped row; on the concrete scenario with
only `("Fronte", 1)` priced and a row requesting `("Retro", 1)`, no variant
and exactly one report result. -/
theorem c8_missing_price_reported :
    (∀ (rows : List ProdRow) (lk : PriceLookup) (r : ProdRow), r ∈ rows →
        lk (pyStrip r.pos.pyStr, r.qty) = none →
        (pyStrip r.pos.pyStr, r.qty) ∈ (build_variants_for_product rows lk).2
        ∧ ∀ v ∈ (build_variants_for_product rows lk).1,
            (v.option2, v.option1) ≠ (pyStrip r.pos.pyStr, r.qty))
    ∧ (∀ (rows : List ProdRow) (lk : PriceLookup),
        (build_variants_for_product rows lk).2.length =
          rows.countP (fun r => (lk (pyStrip r.pos.pyStr, r.qty)).isNone))
    ∧ build_variants_for_product [c8row] c8lookup = ([], [("Retro", 1)]) := by
  refine ⟨?_, bv_reports_length, by decide⟩
  intro rows lk r hr h
  refine ⟨bv_report_mem hr h, ?_⟩
  intro v hv hkey
  have hsome := bv_variant_key_isSome hv
  rw [hkey, h] at hsome
  cases hsome

/-- C8 witness: the drop-and-report statement applied to the scenario. -/
theorem c8_witness :
    ("Retro", 1) ∈ (build_variants_for_product [c8row] c8lookup).2
    ∧ ∀ v ∈ (build_variants_for_product [c8row] c8lookup).1,
        (v.option2, v.option1) ≠ ("Retro", 1) := by
  have h := c8_missing_price_reported.1 [c8row] c8lookup c8row (by decide) (by decide)
  have hk : (pyStrip c8row.pos.pyStr, c8row.qty) = ("Retro", 1) := by decide
  rw [hk] at h
  exact h

/-- C9: the price lookup built by `build_price_lookup` is the exact-match
map keyed by `(trimmed position, integer quantity)` whose value on every
key is the price of the last row in table order matching that key — on a
duplicated key, input row order determines the winner. -/
theorem c9_price_lookup_last_wins (rows : List PriceRow) (k : String × ℤ) :
    build_price_lookup rows k = lastPriceSpec rows k := by
  have h := build_price_lookup_aux rows emptyLookup k
  cases hl : lastPriceSpec rows k with
  | none =>
    rw [hl] at h
    exact h
  | some p =>
    rw [hl] at h
    exact h

/-- C10 amended: when `read_products_df` succeeds, every returned row's
quantity lies in `ALLOWED_QT`; exactly the rows whose quantity is an
integral number in `ALLOWED_QT` survive (non-numeric quantities and
integral quantities outside the set are dropped silently); and no variant
built from the result carries a quantity outside `ALLOWED_QT`. -/
theorem c10_allowed_quantities (raw : Sheet) (out : List ProdRow)
    (h : read_products_df raw = .ok out) :
    (∀ r ∈ out, r.qty ∈ ALLOWED_QT)
    ∧ out.length = (normalize_columns raw).rows.countP (fun r =>
        match (Row.cell r "quantità").tryFloat with
        | some f => decide (f.den = 1 ∧ f.num ∈ ALLOWED_QT)
        | none => false)
    ∧ ∀ (lk : PriceLookup) (v : Variant),
        v ∈ (build_variants_for_product out lk).1 → v.option1 ∈ ALLOWED_QT := by
  unfold read_products_df at h
  by_cases h1 : (["titolo prodotto", "sku", "posizione stampa", "quantità"].all
      (fun c => decide (c ∈ (normalize_columns raw).cols))) = true
  · rw [if_pos h1] at h
    by_cases h2 : ((normalize_columns raw).rows.all (fun r =>
        match (Row.cell r "quantità").tryFloat with
        | some f => f.den == 1
        | none => true)) = true
    · rw [if_pos h2] at h
      simp only [Except.ok.injEq] at h
      have hout : out = (normalize_columns raw).rows.filterMap prodRowOf := h.symm
      have hall : ∀ r ∈ out, r.qty ∈ ALLOWED_QT := by
        intro r hr
        rw [hout] at hr
        rcases List.mem_filterMap.mp hr with ⟨row, _, hbody⟩
        unfold prodRowOf at hbody
        cases hf : (Row.cell row "quantità").tryFloat with
        | none => simp [hf] at hbody
        | some f =>
          simp only [hf] at hbody
          by_cases hc : (f.den = 1 ∧ f.num ∈ ALLOWED_QT)
          · rw [if_pos hc] at hbody
            injection hbody with hx
            rw [← hx]
            exact hc.2
          · rw [if_neg hc] at hbody; cases hbody
      refine ⟨hall, ?_, ?_⟩
      · rw [hout, length_filterMap_countP]
        refine List.countP_congr ?_
        intro r hr
        unfold prodRowOf
        cases hf : (Row.cell r "quantità").tryFloat with
        | none => simp [hf]
        | some f => by_cases hc : (f.den = 1 ∧ f.num ∈ ALLOWED_QT) <;> simp [hf, hc]
      · intro lk v hv
        rcases bv_variant_qty_from_row hv with ⟨r, hrmem, hq⟩
        rw [hq]
        exact hall r hrmem
    · rw [if_neg h2] at h; cases h
  · rw [if_neg h1] at h; cases h

/-- A `Dati` sheet with a numeric, non-integral quantity (2.5). -/
def c10badSheet : Sheet :=
  ⟨["Titolo Prodotto", "SKU", "Posizione Stampa", "Quantità"],
   [[("Titolo Prodotto", .text "P" none), ("SKU", .text "S" none),
     ("Posizione Stampa", .text "Fronte" none), ("Quantità", .num (mkRat 5 2))]]⟩

/-- C10 counterexample: a row with a numeric but non-integral quantity is
not silently dropped — the whole read fails with the Int64-cast error, so
no product table is returned at all. -/
theorem c10_counterexample :
    read_products_df c10badSheet = .error .nonIntegralQuantity := by decide

/-- A `Dati` sheet with one allowed quantity (5), one integral quantity
outside the allowed set (11) and one non-numeric quantity. -/
def c10goodSheet : Sheet :=
  ⟨["Titolo Prodotto", "SKU", "Posizione Stampa", "Quantità"],
   [[("Titolo Prodotto", .text "P" none), ("SKU", .text "S" none),
     ("Posizione Stampa", .text "Fronte" none), ("Quantità", .num (mkRat 5 1))],
    [("Titolo Prodotto", .text "P" none), ("SKU", .text "S" none),
     ("Posizione Stampa", .text "Retro" none), ("Quantità", .num (mkRat 11 1))],
    [("Titolo Prodotto", .text "P" none), ("SKU", .text "S" none),
     ("Posizione Stampa", .text "Retro" none), ("Quantità", .text "boh" none)]]⟩

/-- C10 witness: the allowed-quantities statement applied to a concrete
sheet whose read succeeds and keeps exactly the allowed row. -/
theorem c10_witness :
    (∀ r ∈ ([⟨.text "P" none, .text "S" none, .text "Fronte" none, 5⟩] : List ProdRow),
        r.qty ∈ ALLOWED_QT)
    ∧ ([⟨.text "P" none, .text "S" none, .text "Fronte" none, 5⟩] : List ProdRow).length =
        (normalize_columns c10goodSheet).rows.countP (fun r =>
          match (Row.cell r "quantità").tryFloat with
          | some f => decide (f.den = 1 ∧ f.num ∈ ALLOWED_QT)
          | none => false)
    ∧ ∀ (lk : PriceLookup) (v : Variant),
        v ∈ (build_variants_for_product
              [⟨.text "P" none, .text "S" none, .text "Fronte" none, 5⟩] lk).1 →
          v.option1 ∈ ALLOWED_QT :=
  c10_allowed_quantities c10goodSheet
    [⟨.text "P" none, .text "S" none, .text "Fronte" none, 5⟩] (by decide)
